import Mathlib

/-!
Verification of the repository's two source files:

  * `src/mypy/literals.py`    — canonical structural hashing of expressions
    ("literal keys"): `literal` and `literal_hash` / class `_Hasher`.
  * `src/mypy/checkunbound.py` — definite-assignment / unbound-local
    analysis: `_is_false`/`_is_true`, `GlobalsCollector`, `LocalsCollector`,
    `_get_lvalues`, `_is_end_unreachable`/`ReachabilityChecker`,
    `_UsageChecker`, `UsageChecker`.

The embedding is shallow.  The Python syntax tree (mypy `nodes.py`) is
modelled as a family of mutually inductive types covering exactly the node
kinds the two files dispatch on; node kinds that every analysis treats as an
opaque leaf are collapsed into `Expr.otherE`.  Python `dict` snapshots of
assignment state become functions `String → Bool`; every read the source
performs on such a dict is guarded by a membership test on the locals set,
so the function model is observationally faithful.  Runtime failures the
source can actually raise (AttributeError from calling set methods on a
dict, NameError from the undefined `_get_lvalue_names`, AssertionError in
`_get_lvalues`) are modelled with an `Except PyErr` result.  Debug `print`
calls in the source are pure side effects on stdout and are not modelled.

All definitions are structurally recursive so that closed theorems evaluate
by `decide`/`rfl`.
-/

mutual
/-- Expressions, after mypy's `nodes.py`, restricted to the node kinds the
two analysed files inspect.  `nameE` carries the spelled name, the resolved
`fullname` (`""` when mypy would store `None`) and the resolved declaration
identity `node` (mypy compares the `SymbolNode` object by identity; we model
identities as `Option Nat`).  `strE` carries `from_python_3`.  Float and
complex literal values are carried as their source text, since no analysed
code inspects them numerically.  `callE` carries the flag
`isinstance(o.analyzed, RevealExpr)` used by `_UsageChecker.visit_call_expr`,
and `starE` carries `StarExpr.valid`.  `otherE` stands for the expression
kinds (slice, cast, lambda, yield, await, ellipsis, comprehension, ...)
that every analysed function treats as a childless leaf mapped to "no key". -/
inductive Expr where
  | intE (value : Int)
  | strE (value : String) (fromPython3 : Bool)
  | bytesE (value : String)
  | unicodeE (value : String)
  | floatE (value : String)
  | complexE (value : String)
  | nameE (name : String) (fullname : String) (node : Option Nat)
  | memberE (expr : Expr) (name : String)
  | opE (op : String) (left : Expr) (right : Expr)
  | cmpE (operators : List String) (operands : ExprList)
  | unaryE (op : String) (expr : Expr)
  | starE (valid : Bool) (expr : Expr)
  | indexE (base : Expr) (index : Expr)
  | listE (items : ExprList)
  | tupleE (items : ExprList)
  | setE (items : ExprList)
  | dictE (items : DictItemList)
  | callE (callee : Expr) (args : ExprList) (analyzedIsReveal : Bool)
  | otherE (kind : String)
  deriving DecidableEq

inductive ExprList where
  | nil
  | cons (e : Expr) (es : ExprList)
  deriving DecidableEq

inductive OptExpr where
  | none
  | some (e : Expr)
  deriving DecidableEq

inductive DictItemList where
  | nil
  | cons (key : OptExpr) (value : Expr) (rest : DictItemList)
  deriving DecidableEq
end

mutual
/-- Keys, after `literals.py`.  A Python key is a tuple whose first element
is a tag string; each tag gets a constructor.  Children of a key are the
raw results of `literal_hash` on subexpressions, which in the source may be
`None`; `noneK` models a Python `None` sitting inside a key tuple.
`var` carries the resolved declaration identity (`('Var', e.node)`).
Cross-type Python numeric equality (`3 == 3.0` making
`('Literal', 3) == ('Literal', 3.0)`) is not modelled; float values are
carried as source text and no theorem below compares an int key with a
float key. -/
inductive Key where
  | noneK
  | litInt (v : Int)
  | litStr (v : String) (fromPython3 : Bool)
  | litBytes (v : String)
  | litUnicode (v : String)
  | litFloat (v : String)
  | litComplex (v : String)
  | star (k : Key)
  | var (node : Option Nat)
  | member (k : Key) (name : String)
  | binary (op : String) (l : Key) (r : Key)
  | cmp (operators : List String) (ks : KeyList)
  | unary (op : String) (k : Key)
  | seq (tag : String) (ks : KeyList)
  | dict (entries : DKeyList)
  | index (base : Key) (idx : Key)
  deriving DecidableEq

inductive KeyList where
  | nil
  | cons (k : Key) (ks : KeyList)
  deriving DecidableEq

inductive DKeyList where
  | nil
  | cons (a : Key) (b : Key) (rest : DKeyList)
  deriving DecidableEq
end

/-- mypy constant `LITERAL_YES = 2`. -/
def LITERAL_YES : Int := 2

/-- mypy constant `LITERAL_TYPE = 1`. -/
def LITERAL_TYPE : Int := 1

/-- mypy constant `LITERAL_NO = 0`. -/
def LITERAL_NO : Int := 0

/-- A Python `None`-or-key value placed inside a key tuple: `literals.py`
stores `literal_hash(sub)` directly in the tuple, without checking it for
`None`. -/
def keyChild : Option Key → Key
  | Option.none => Key.noneK
  | Option.some k => k

/-- `min(literal(o) for o in e.operands)`; comparison expressions always
have operands, and every classification is at most `LITERAL_YES`, so
folding `min` from `LITERAL_YES` agrees with Python's `min` on the
non-empty lists that actually occur. -/
def litMin (ps : List (Option Key × Int)) : Int :=
  ps.foldr (fun p acc => min p.2 acc) LITERAL_YES

/-- The raw hashes of a list of subexpressions, as key children. -/
def keyChildren (ps : List (Option Key × Int)) : KeyList :=
  match ps with
  | [] => KeyList.nil
  | p :: rest => KeyList.cons (keyChild p.1) (keyChildren rest)

/-- `_Hasher.seq_expr`: the repository's modified guard accepts the
sequence iff every item classifies `!= LITERAL_NO` (was `== LITERAL_YES`
upstream; see the `THL` comment). -/
def seqPair (tag : String) (ps : List (Option Key × Int)) : Option Key × Int :=
  if ps.all (fun p => p.2 ≠ LITERAL_NO) then
    (Option.some (Key.seq tag (keyChildren ps)), LITERAL_YES)
  else (Option.none, LITERAL_NO)

/-- `visit_dict_expr`'s guard:
`all(a and literal(a) == literal(b) == LITERAL_YES for a, b in e.items)`. -/
def dictAllYes
    (ps : List (Option (Option Key × Int) × (Option Key × Int))) : Bool :=
  ps.all (fun p =>
    match p.1 with
    | Option.none => false
    | Option.some kp => kp.2 = LITERAL_YES ∧ p.2.2 = LITERAL_YES)

/-- The key children of accepted dict entries:
`(literal_hash(a) if a else None, literal_hash(b))`. -/
def dictChildren
    (ps : List (Option (Option Key × Int) × (Option Key × Int))) : DKeyList :=
  match ps with
  | [] => DKeyList.nil
  | p :: rest =>
      DKeyList.cons
        (match p.1 with
         | Option.none => Key.noneK
         | Option.some kp => keyChild kp.1)
        (keyChild p.2.1) (dictChildren rest)

mutual
/-- Computes `literal` and `literal_hash` of `literals.py` together, as a
pair `(literal_hash e, literal e)`.  The two source functions are mutually
recursive, with `literal` calling `literal_hash` on the *same* expression
for its fallback case (`if literal_hash(e): return LITERAL_YES`), so the
pair is computed in one structural pass; `literal_hash` and `literal`
below are its projections.  Each match arm mirrors one `visit_*` method of
`_Hasher` together with the corresponding branch of `literal`:

  * scalar literal nodes → `('Literal', value)` (plus `from_python_3` for
    `StrExpr`), classification `LITERAL_YES`;
  * `visit_star_expr` / `visit_member_expr` / `visit_unary_expr` wrap the
    child's raw hash (which may be `None`); `literal` takes the child's
    classification;
  * `visit_name_expr` → `('Var', e.node)`, classification `LITERAL_TYPE`;
  * `visit_op_expr` → `('Binary', e.op, hash l, hash r)`, classification
    `min(literal l, literal r)`;
  * `visit_comparison_expr` → `('Comparison',) + operators + hashes`,
    classification `min` over operands;
  * `seq_expr` (list/tuple/set) → tagged hashes of the items, but only if
    every item's classification is `!= LITERAL_NO` (the repository's
    modified guard, see the `THL` comment in the source), else `None`;
  * `visit_dict_expr` → entry pairs, only if every entry key is present
    (truthy) and both sides classify `LITERAL_YES`, else `None`;
  * `visit_index_expr` → `('Index', hash base, hash index)` only if the
    index classifies `LITERAL_YES`, else `None`;
  * `visit_call_expr` and every other kind → `None`;
  * for the node kinds with no dedicated `literal` branch, classification
    is `LITERAL_YES` iff the hash is present, else `LITERAL_NO`
    (`literal`'s fall-through). -/
def litPair : Expr → Option Key × Int
  | Expr.intE v => (Option.some (Key.litInt v), LITERAL_YES)
  | Expr.strE v f => (Option.some (Key.litStr v f), LITERAL_YES)
  | Expr.bytesE v => (Option.some (Key.litBytes v), LITERAL_YES)
  | Expr.unicodeE v => (Option.some (Key.litUnicode v), LITERAL_YES)
  | Expr.floatE v => (Option.some (Key.litFloat v), LITERAL_YES)
  | Expr.complexE v => (Option.some (Key.litComplex v), LITERAL_YES)
  | Expr.nameE _ _ node => (Option.some (Key.var node), LITERAL_TYPE)
  | Expr.starE _ e =>
      let p := litPair e
      (Option.some (Key.star (keyChild p.1)), p.2)
  | Expr.memberE e nm =>
      let p := litPair e
      (Option.some (Key.member (keyChild p.1) nm), p.2)
  | Expr.unaryE op e =>
      let p := litPair e
      (Option.some (Key.unary op (keyChild p.1)), p.2)
  | Expr.opE op l r =>
      let pl := litPair l
      let pr := litPair r
      (Option.some (Key.binary op (keyChild pl.1) (keyChild pr.1)),
       min pl.2 pr.2)
  | Expr.cmpE ops operands =>
      let ps := litPairList operands
      (Option.some (Key.cmp ops (keyChildren ps)), litMin ps)
  | Expr.indexE b i =>
      let pb := litPair b
      let pi := litPair i
      if pi.2 = LITERAL_YES then
        (Option.some (Key.index (keyChild pb.1) (keyChild pi.1)), pb.2)
      else (Option.none, LITERAL_NO)
  | Expr.listE items => seqPair "List" (litPairList items)
  | Expr.tupleE items => seqPair "Tuple" (litPairList items)
  | Expr.setE items => seqPair "Set" (litPairList items)
  | Expr.dictE items =>
      let ps := litDictList items
      if dictAllYes ps then
        (Option.some (Key.dict (dictChildren ps)), LITERAL_YES)
      else (Option.none, LITERAL_NO)
  | Expr.callE _ _ _ => (Option.none, LITERAL_NO)
  | Expr.otherE _ => (Option.none, LITERAL_NO)

/-- `litPair` mapped over an expression list (operands, container items). -/
def litPairList : ExprList → List (Option Key × Int)
  | ExprList.nil => []
  | ExprList.cons e es => litPair e :: litPairList es

/-- `litPair` over dict entries: for each `(a, b)`, the key side is
`litPair a` when `a` is present and `None` (classification irrelevant,
recorded as absent) when the entry key is missing (`**`-unpacking). -/
def litDictList : DictItemList → List (Option (Option Key × Int) × (Option Key × Int))
  | DictItemList.nil => []
  | DictItemList.cons k v rest =>
      let kp := match k with
        | OptExpr.none => Option.none
        | OptExpr.some a => Option.some (litPair a)
      (kp, litPair v) :: litDictList rest
end

/-- `literal_hash` of `literals.py` (no `literal`-guard in this
repository's version: it is `e.accept(_hasher)` directly). -/
def literal_hash (e : Expr) : Option Key := (litPair e).1

/-- `literal` of `literals.py`. -/
def literal (e : Expr) : Int := (litPair e).2

/-- The resolved data of a mypy `NameExpr` used as an exception-handler
binding (`TryStmt.vars` entries). -/
structure NameData where
  name : String
  fullname : String
  node : Option Nat
  deriving DecidableEq

/-- Turns handler-binding data back into the `NameExpr` node it models. -/
def NameData.toExpr (v : NameData) : Expr :=
  Expr.nameE v.name v.fullname v.node

mutual
/-- Statements, after mypy's `nodes.py`, restricted to the statement kinds
the analysed file dispatches on.  `ifS` fuses mypy's parallel lists
`IfStmt.expr` / `IfStmt.body` into one branch list (the source always
consumes them through `zip`).  `tryS` likewise fuses `types`, `vars` and
`handlers`.  `raiseS` omits `RaiseStmt.from_expr` and `assertS` omits
`AssertStmt.msg`; nested function definitions, `with`, `del`, module
imports, operator-assignment statements, and comprehension scoping are
outside the modelled fragment (no claim touches them). -/
inductive Stmt where
  | passS
  | exprS (e : Expr)
  | assignS (lvalues : ExprList) (rvalue : Expr)
  | ifS (branches : BranchList) (elseBody : OptBlock)
  | whileS (cond : Expr) (body : Block) (elseBody : OptBlock)
  | forS (index : Expr) (iter : Expr) (body : Block) (elseBody : OptBlock)
  | tryS (body : Block) (handlers : HandlerList) (elseBody : OptBlock)
      (finallyBody : OptBlock)
  | returnS (e : OptExpr)
  | raiseS (e : OptExpr)
  | breakS
  | continueS
  | assertS (e : Expr)
  | globalS (names : List String)
  deriving DecidableEq

/-- A `mypy.nodes.Block`: a statement sequence. -/
inductive Block where
  | nil
  | cons (s : Stmt) (ss : Block)
  deriving DecidableEq

/-- An optional block (`else_body`, `finally_body`). -/
inductive OptBlock where
  | none
  | some (b : Block)
  deriving DecidableEq

/-- The zipped `IfStmt.expr` / `IfStmt.body` lists. -/
inductive BranchList where
  | nil
  | cons (cond : Expr) (body : Block) (rest : BranchList)
  deriving DecidableEq

/-- The zipped `TryStmt.types` / `TryStmt.vars` / `TryStmt.handlers`
lists. -/
inductive HandlerList where
  | nil
  | cons (tp : OptExpr) (v : Option NameData) (hbody : Block)
      (rest : HandlerList)
  deriving DecidableEq
end

/-- `checkunbound._is_false`: the condition is the name resolving to
`builtins.False` or the integer literal `0`.  (The Python annotation says
`Union[NameExpr, IntExpr]` but the function is applied to arbitrary
condition expressions and decides by `isinstance`.) -/
def _is_false (e : Expr) : Bool :=
  match e with
  | Expr.nameE _ fullname _ => fullname = "builtins.False"
  | Expr.intE v => v = 0
  | _ => false

/-- `checkunbound._is_true`: the condition is the name resolving to
`builtins.True` or the integer literal `1`. -/
def _is_true (e : Expr) : Bool :=
  match e with
  | Expr.nameE _ fullname _ => fullname = "builtins.True"
  | Expr.intE v => v = 1
  | _ => false

/-- `mypy.reachability.is_sys_attr(expr, 'exit')`: a member access `.exit`
whose base is a name resolving to `sys`. -/
def isSysExit (callee : Expr) : Bool :=
  match callee with
  | Expr.memberE (Expr.nameE _ fullname _) nm =>
      nm = "exit" ∧ fullname = "sys"
  | _ => false

mutual
/-- `ReachabilityChecker`'s traversal of an expression: the inherited
`TraverserVisitor` walk, with `visit_call_expr` marking the end unreachable
on a `sys.exit` call (and not descending into it) and descending into the
arguments and callee otherwise.  The boolean threads
`self.is_end_unreachable`. -/
def reachExpr (f : Bool) (e : Expr) : Bool :=
  match e with
  | Expr.callE callee args _ =>
      if isSysExit callee then true
      else reachExpr (reachExprList f args) callee
  | Expr.memberE e1 _ => reachExpr f e1
  | Expr.opE _ l r => reachExpr (reachExpr f l) r
  | Expr.cmpE _ operands => reachExprList f operands
  | Expr.unaryE _ e1 => reachExpr f e1
  | Expr.starE _ e1 => reachExpr f e1
  | Expr.indexE b i => reachExpr (reachExpr f b) i
  | Expr.listE items => reachExprList f items
  | Expr.tupleE items => reachExprList f items
  | Expr.setE items => reachExprList f items
  | Expr.dictE items => reachDictItems f items
  | _ => f

/-- Expression-list traversal for `reachExpr`. -/
def reachExprList (f : Bool) (es : ExprList) : Bool :=
  match es with
  | ExprList.nil => f
  | ExprList.cons e rest => reachExprList (reachExpr f e) rest

/-- Dict-item traversal for `reachExpr` (key if present, then value). -/
def reachDictItems (f : Bool) (items : DictItemList) : Bool :=
  match items with
  | DictItemList.nil => f
  | DictItemList.cons k v rest =>
      let f1 := match k with
        | OptExpr.none => f
        | OptExpr.some ke => reachExpr f ke
      reachDictItems (reachExpr f1 v) rest
end

/-- The condition walk of `ReachabilityChecker.visit_if_stmt`
(`for e in o.expr: e.accept(self)`): every condition is visited. -/
def reachConds (f : Bool) (br : BranchList) : Bool :=
  match br with
  | BranchList.nil => f
  | BranchList.cons e _ rest => reachConds (reachExpr f e) rest

mutual
/-- `ReachabilityChecker`'s statement visit, threading
`self.is_end_unreachable`.  `return`/`break`/`continue`/`raise` force the
flag (after the inherited subexpression walk, which can only also set it);
an `assert` whose condition `_is_false` forces it; `if`/`while`/`for`
combine their bodies through `_visit_bodies_and_else` (which keeps an
already-set flag and otherwise requires every included body, checked by a
fresh checker, to have an unreachable end — the `else` body is included
only when present, and for `while` only when the condition is not
`_is_true`); `visit_try_stmt` computes `all(has_unreachable_end)` but
`return`s that value instead of storing it into `self.is_end_unreachable`,
so a try statement never changes the flag (the discarded value is
`tryComputedUnreachable` below). -/
def reachStmt (f : Bool) (s : Stmt) : Bool :=
  match s with
  | Stmt.passS => f
  | Stmt.exprS e => reachExpr f e
  | Stmt.assignS lvs rv => reachExprList (reachExpr f rv) lvs
  | Stmt.returnS _ => true
  | Stmt.raiseS _ => true
  | Stmt.breakS => true
  | Stmt.continueS => true
  | Stmt.assertS e => reachExpr (f || _is_false e) e
  | Stmt.globalS _ => f
  | Stmt.ifS br els =>
      let f1 := reachConds f br
      if f1 then true
      else reachBranchBodiesUnreach br &&
        (match els with
         | OptBlock.none => true
         | OptBlock.some eb => reachBlock false eb)
  | Stmt.whileS cond body els =>
      let f1 := reachExpr f cond
      if f1 then true
      else reachBlock false body &&
        (match els with
         | OptBlock.none => true
         | OptBlock.some eb => _is_true cond || reachBlock false eb)
  | Stmt.forS idx iter body els =>
      let f1 := reachExpr (reachExpr f iter) idx
      if f1 then true
      else reachBlock false body &&
        (match els with
         | OptBlock.none => true
         | OptBlock.some eb => reachBlock false eb)
  | Stmt.tryS _ _ _ _ => f

/-- `Block.accept` under a `ReachabilityChecker`: every statement is
visited, whether or not the flag is already set. -/
def reachBlock (f : Bool) (b : Block) : Bool :=
  match b with
  | Block.nil => f
  | Block.cons s ss => reachBlock (reachStmt f s) ss

/-- `all(self._check_block(b) for b in bodies)` over the branch bodies of
an `if`: each body is checked by a fresh checker. -/
def reachBranchBodiesUnreach (br : BranchList) : Bool :=
  match br with
  | BranchList.nil => true
  | BranchList.cons _ body rest =>
      reachBlock false body && reachBranchBodiesUnreach rest
end

/-- `checkunbound._is_end_unreachable` on a block: a fresh
`ReachabilityChecker` starting from "reachable". -/
def _is_end_unreachable (b : Block) : Bool := reachBlock false b

/-- One exception handler's end-unreachability as
`ReachabilityChecker.visit_try_stmt` computes it (lines 214-223): a fresh
checker visits the handler's type expression, bound name and body. -/
def handlerEndUnreach (tp : OptExpr) (hbody : Block) : Bool :=
  let f := match tp with
    | OptExpr.none => false
    | OptExpr.some t => reachExpr false t
  reachBlock f hbody

/-- Whether every handler of a try statement has an unreachable end. -/
def handlersEndUnreach (hs : HandlerList) : Bool :=
  match hs with
  | HandlerList.nil => true
  | HandlerList.cons tp _ hb rest =>
      handlerEndUnreach tp hb && handlersEndUnreach rest

/-- The value `all(has_unreachable_end)` that
`ReachabilityChecker.visit_try_stmt` computes and then discards with
`return` instead of assigning to `self.is_end_unreachable`: the try body,
every handler, the `else` body if present and the `finally` body if
present all have unreachable ends. -/
def tryComputedUnreachable (body : Block) (hs : HandlerList)
    (els fin : OptBlock) : Bool :=
  _is_end_unreachable body && handlersEndUnreach hs &&
    (match els with
     | OptBlock.none => true
     | OptBlock.some eb => _is_end_unreachable eb) &&
    (match fin with
     | OptBlock.none => true
     | OptBlock.some fb => _is_end_unreachable fb)

/-- The runtime failures the analysed code can actually raise:
`AttributeError` (set methods `add`/`discard` called on the `dict` that
`LocalsCollector.locals = {}` creates), `NameError` (the helper
`_get_lvalue_names` is referenced by `visit_for_stmt`, `visit_with_stmt`,
`visit_del_stmt` and the comprehension visitors but defined nowhere), and
`AssertionError` (`_get_lvalues` on an unsupported target shape). -/
inductive PyErr where
  | nameError (name : String)
  | attributeError (ty meth : String)
  | assertionError
  deriving DecidableEq

/-- Insertion into a Python dict's key sequence: new keys append, existing
keys keep their position. -/
def insertKey (ks : List String) (k : String) : List String :=
  if ks.contains k then ks else ks ++ [k]

/-- `dict.update` on key sequences. -/
def unionKeys (ks more : List String) : List String :=
  more.foldl insertKey ks

mutual
/-- The `walk` closure of `checkunbound._get_lvalues`, threading the
`result` dict's keys: a name records itself, a tuple recurses into its
items, a valid star target recurses into its operand, member and index
targets are skipped, and any other shape fails the
`assert isinstance(x, (MemberExpr, IndexExpr, SuperExpr))`.  (`SuperExpr`
is outside the modelled fragment.)  The debug `print` is a stdout side
effect only. -/
def lvalueWalk (acc : List String) (e : Expr) : Except PyErr (List String) :=
  match e with
  | Expr.nameE n _ _ => Except.ok (insertKey acc n)
  | Expr.tupleE items => lvalueWalkList acc items
  | Expr.starE valid e1 =>
      if valid then lvalueWalk acc e1 else Except.ok acc
  | Expr.memberE _ _ => Except.ok acc
  | Expr.indexE _ _ => Except.ok acc
  | _ => Except.error PyErr.assertionError

/-- `walk` over a tuple target's items. -/
def lvalueWalkList (acc : List String) (es : ExprList) :
    Except PyErr (List String) :=
  match es with
  | ExprList.nil => Except.ok acc
  | ExprList.cons e rest => do
      let acc1 ← lvalueWalk acc e
      lvalueWalkList acc1 rest
end

/-- `checkunbound._get_lvalues` (its result dict's keys, in insertion
order). -/
def _get_lvalues (e : Expr) : Except PyErr (List String) := lvalueWalk [] e

/-- What `LocalsCollector.visit_assignment_stmt` records for one
assignment statement: `self.locals.update(_get_lvalues(lvalue))` over the
lvalues, with no descent into the rvalue (the method does not call
`super()`).  This is also what `_UsageChecker.visit_assignment_stmt`
obtains from its `_get_locals(o, ...)` call on the statement. -/
def assignLocals (lvs : ExprList) : Except PyErr (List String) :=
  lvalueWalkList [] lvs

mutual
/-- `GlobalsCollector`: the inherited traversal collecting
`GlobalDecl.names` (`self.globals.update(o.names)`) from every statement,
including nested blocks. -/
def globalsStmt (acc : List String) (s : Stmt) : List String :=
  match s with
  | Stmt.globalS names => unionKeys acc names
  | Stmt.ifS br els => globalsOptBlock (globalsBranches acc br) els
  | Stmt.whileS _ body els => globalsOptBlock (globalsBlock acc body) els
  | Stmt.forS _ _ body els => globalsOptBlock (globalsBlock acc body) els
  | Stmt.tryS body hs els fin =>
      globalsOptBlock
        (globalsOptBlock (globalsHandlers (globalsBlock acc body) hs) els)
        fin
  | _ => acc

/-- `GlobalsCollector` over a block. -/
def globalsBlock (acc : List String) (b : Block) : List String :=
  match b with
  | Block.nil => acc
  | Block.cons s ss => globalsBlock (globalsStmt acc s) ss

/-- `GlobalsCollector` over an optional block. -/
def globalsOptBlock (acc : List String) (ob : OptBlock) : List String :=
  match ob with
  | OptBlock.none => acc
  | OptBlock.some b => globalsBlock acc b

/-- `GlobalsCollector` over if-branches. -/
def globalsBranches (acc : List String) (br : BranchList) : List String :=
  match br with
  | BranchList.nil => acc
  | BranchList.cons _ body rest => globalsBranches (globalsBlock acc body) rest

/-- `GlobalsCollector` over handlers. -/
def globalsHandlers (acc : List String) (hs : HandlerList) : List String :=
  match hs with
  | HandlerList.nil => acc
  | HandlerList.cons _ _ hb rest => globalsHandlers (globalsBlock acc hb) rest
end

/-- `checkunbound._get_globals` on a function body. -/
def _get_globals (b : Block) : List String := globalsBlock [] b

/-- `LocalsCollector.visit_try_stmt`'s own recording:
`self.locals.update(_get_lvalues(v))` for each present handler binding. -/
def localsHandlerVars (acc : List String) (hs : HandlerList) :
    Except PyErr (List String) :=
  match hs with
  | HandlerList.nil => Except.ok acc
  | HandlerList.cons _ v _ rest =>
      localsHandlerVars
        (match v with
         | Option.none => acc
         | Option.some vd => insertKey acc vd.name) rest

mutual
/-- `LocalsCollector`'s statement visit, threading the keys of its
`locals` dict: assignment statements record their target names (and do not
descend), `for` statements record the index targets and descend,
`try` statements record the handler binding names and descend, and the
remaining modelled statements only descend into nested blocks (expressions
contribute nothing in the modelled fragment, which has no comprehensions).
Failures of `_get_lvalues` propagate. -/
def localsStmt (acc : List String) (s : Stmt) : Except PyErr (List String) :=
  match s with
  | Stmt.assignS lvs _ => lvalueWalkList acc lvs
  | Stmt.forS idx _ body els => do
      let acc1 ← lvalueWalk acc idx
      let acc2 ← localsBlock acc1 body
      localsOptBlock acc2 els
  | Stmt.tryS body hs els fin => do
      let acc1 ← localsHandlerVars acc hs
      let acc2 ← localsBlock acc1 body
      let acc3 ← localsHandlers acc2 hs
      let acc4 ← localsOptBlock acc3 els
      localsOptBlock acc4 fin
  | Stmt.ifS br els => do
      let acc1 ← localsBranches acc br
      localsOptBlock acc1 els
  | Stmt.whileS _ body els => do
      let acc1 ← localsBlock acc body
      localsOptBlock acc1 els
  | _ => Except.ok acc

/-- `LocalsCollector` over a block. -/
def localsBlock (acc : List String) (b : Block) : Except PyErr (List String) :=
  match b with
  | Block.nil => Except.ok acc
  | Block.cons s ss => do
      let acc1 ← localsStmt acc s
      localsBlock acc1 ss

/-- `LocalsCollector` over an optional block. -/
def localsOptBlock (acc : List String) (ob : OptBlock) :
    Except PyErr (List String) :=
  match ob with
  | OptBlock.none => Except.ok acc
  | OptBlock.some b => localsBlock acc b

/-- `LocalsCollector` over if-branches. -/
def localsBranches (acc : List String) (br : BranchList) :
    Except PyErr (List String) :=
  match br with
  | BranchList.nil => Except.ok acc
  | BranchList.cons _ body rest => do
      let acc1 ← localsBlock acc body
      localsBranches acc1 rest

/-- `LocalsCollector` over handler bodies. -/
def localsHandlers (acc : List String) (hs : HandlerList) :
    Except PyErr (List String) :=
  match hs with
  | HandlerList.nil => Except.ok acc
  | HandlerList.cons _ _ hb rest => do
      let acc1 ← localsBlock acc hb
      localsHandlers acc1 rest
end

/-- `checkunbound._get_locals` on a function body: the keys of the
collector's `locals`, which — despite the `Set[str]` annotation — is the
*dict* created by `self.locals = {}`. -/
def _get_locals (b : Block) : Except PyErr (List String) := localsBlock [] b

/-- `locals.add(name)`: `add` is a set method; on the dict that
`_get_locals` actually returns it raises
`AttributeError: 'dict' object has no attribute 'add'`. -/
def pyDictAdd (_ks : List String) (_k : String) : Except PyErr (List String) :=
  Except.error (PyErr.attributeError "dict" "add")

/-- `locals.discard(name)`: likewise a set method missing on a dict. -/
def pyDictDiscard (_ks : List String) (_k : String) :
    Except PyErr (List String) :=
  Except.error (PyErr.attributeError "dict" "discard")

/-- Monadic fold of `pyDictAdd` over `bound_names`. -/
def foldDictAdd (ks : List String) (names : List String) :
    Except PyErr (List String) :=
  match names with
  | [] => Except.ok ks
  | n :: rest => do
      let ks1 ← pyDictAdd ks n
      foldDictAdd ks1 rest

/-- Monadic fold of `pyDictDiscard` over the collected globals. -/
def foldDictDiscard (ks : List String) (names : List String) :
    Except PyErr (List String) :=
  match names with
  | [] => Except.ok ks
  | n :: rest => do
      let ks1 ← pyDictDiscard ks n
      foldDictDiscard ks1 rest

/-- An assignment-state snapshot: local name → "definitely assigned".
Models the `assignments` dict; every read the source performs on it is
guarded by membership in the locals set, so a total function is
observationally faithful. -/
def Asg := String → Bool

/-- Pointwise update of a snapshot (one dict store). -/
def updateAsg (a : Asg) (n : String) (v : Bool) : Asg :=
  fun m => if m = n then v else a m

/-- `_UsageChecker._record_assignment`. -/
def _record_assignment (L : List String) (n : String) (a : Asg) : Asg :=
  if L.contains n then updateAsg a n true else a

/-- `_UsageChecker._record_deletion`. -/
def _record_deletion (L : List String) (n : String) (a : Asg) : Asg :=
  if L.contains n then updateAsg a n false else a

/-- `_record_assignment` over a list of target names. -/
def recordAll (L : List String) (names : List String) (a : Asg) : Asg :=
  names.foldl (fun acc n => _record_assignment L n acc) a

/-- The result of `UsageChecker.__init__` when it does not raise. -/
structure InitResult where
  locals : List String
  assignments : Asg

/-- `UsageChecker.__init__`: collect the locals dict, `add` every bound
(parameter) name to it, `discard` every collected global from it — both of
which are set methods and raise `AttributeError` on the dict `_get_locals`
returns — then freeze the local set and mark exactly the bound names
assigned. -/
def usageCheckerInit (body : Block) (boundNames : List String) :
    Except PyErr InitResult := do
  let ks ← _get_locals body
  let ks1 ← foldDictAdd ks boundNames
  let ks2 ← foldDictDiscard ks1 (_get_globals body)
  Except.ok
    { locals := ks2, assignments := fun name => boundNames.contains name }

/-- `_merge_assignments`: `None` on an empty contributor list, otherwise a
fresh dict marking a local assigned iff every contributor does. -/
def _merge_assignments (contribs : List Asg) : Option Asg :=
  match contribs with
  | [] => Option.none
  | _ :: _ => Option.some (fun n => contribs.all (fun a => a n))

/-- `_absorb_assignments`: a `None` merge result means every analysed code
path was unreachable, and the state becomes "all locals assigned" so that
no further diagnostics fire on dead code. -/
def _absorb_assignments (L : List String) (o : Option Asg) : Asg :=
  match o with
  | Option.none => fun n => L.contains n
  | Option.some a => a

mutual
/-- The inherited `TraverserVisitor` walk of an expression under a
`_UsageChecker`, collecting diagnostics in visit order.
`visit_name_expr` warns when the name is a tracked local whose state is
"not assigned" (the diagnostic is modelled by the variable name; source
positions are not modelled).  `visit_call_expr` skips the whole call when
`o.analyzed` is a `RevealExpr`.  No expression in the modelled fragment
mutates the assignment state, so the walk returns diagnostics only. -/
def checkExpr (L : List String) (asg : Asg) (e : Expr) : List String :=
  match e with
  | Expr.nameE n _ _ => if L.contains n && !(asg n) then [n] else []
  | Expr.callE callee args isReveal =>
      if isReveal then []
      else checkExprList L asg args ++ checkExpr L asg callee
  | Expr.memberE e1 _ => checkExpr L asg e1
  | Expr.opE _ l r => checkExpr L asg l ++ checkExpr L asg r
  | Expr.cmpE _ operands => checkExprList L asg operands
  | Expr.unaryE _ e1 => checkExpr L asg e1
  | Expr.starE _ e1 => checkExpr L asg e1
  | Expr.indexE b i => checkExpr L asg b ++ checkExpr L asg i
  | Expr.listE items => checkExprList L asg items
  | Expr.tupleE items => checkExprList L asg items
  | Expr.setE items => checkExprList L asg items
  | Expr.dictE items => checkDictItems L asg items
  | _ => []

/-- Expression-list traversal for `checkExpr`. -/
def checkExprList (L : List String) (asg : Asg) (es : ExprList) :
    List String :=
  match es with
  | ExprList.nil => []
  | ExprList.cons e rest => checkExpr L asg e ++ checkExprList L asg rest

/-- Dict-item traversal for `checkExpr` (key if present, then value). -/
def checkDictItems (L : List String) (asg : Asg) (items : DictItemList) :
    List String :=
  match items with
  | DictItemList.nil => []
  | DictItemList.cons k v rest =>
      (match k with
       | OptExpr.none => []
       | OptExpr.some ke => checkExpr L asg ke) ++
        checkExpr L asg v ++ checkDictItems L asg rest
end

/-- `checkExpr` over an optional expression (`_check` on an expression). -/
def checkOptExpr (L : List String) (asg : Asg) (oe : OptExpr) : List String :=
  match oe with
  | OptExpr.none => []
  | OptExpr.some e => checkExpr L asg e

/-- The diagnostics of `_UsageChecker.visit_if_stmt`'s condition loop:
each condition is visited under the (unchanged) current state, and the
loop `break`s after a `_is_true` condition, so later conditions are not
visited. -/
def condDiags (L : List String) (asg : Asg) (br : BranchList) : List String :=
  match br with
  | BranchList.nil => []
  | BranchList.cons e _ rest =>
      checkExpr L asg e ++ (if _is_true e then [] else condDiags L asg rest)

/-- Whether `visit_if_stmt`'s loop sets `else_is_unreachable`: some
condition is `_is_true` (the loop then `break`s, so this is reached iff
any condition up to and including the first true one is true). -/
def elseIsUnreachable (br : BranchList) : Bool :=
  match br with
  | BranchList.nil => false
  | BranchList.cons e _ rest => _is_true e || elseIsUnreachable rest

/-- The result of running a `_UsageChecker` over a piece of syntax.
`asg` is the checker's final `self.assignments`; `diags` the diagnostics
emitted, in order.  Aliasing of the underlying Python dict matters in one
place — `visit_try_stmt` does `self.assignments = block_assignments[0]`
before analyzing the `else` body, and later merges the *final content of
that same dict object* — so the result also tracks the dict object that
was `self.assignments` on entry: `rebound` says whether
`self.assignments` was ever re-bound to a different dict during the run
(`_absorb_assignments` and `visit_try_stmt` re-bind; plain recording
mutates in place), and `aliasAsg` is the entry dict's final content
(`asg` itself when no re-binding happened, the content at the moment of
the first re-binding otherwise; in the modelled fragment no in-place
mutation precedes a re-binding inside one statement, so a re-binding
statement freezes the entry dict at the statement's entry state). -/
structure TRes where
  asg : Asg
  aliasAsg : Asg
  rebound : Bool
  diags : List String

/-- The state a handler's sub-checker has when its body starts: the
fresh copy of the pre-try state, with the binding name (if any) recorded
assigned (`visit_try_stmt` lines 407-412). -/
def handlerEntry (L : List String) (v : Option NameData) (asg : Asg) : Asg :=
  match v with
  | Option.none => asg
  | Option.some vd => _record_assignment L vd.name asg

/-- The diagnostics-and-contributors step shared by `visit_if_stmt` and
`visit_while_stmt` (`_visit_bodies_and_else` + `_merge_blocks` +
`_absorb_assignments`): take the condition diagnostics, the result of
processing the live branch bodies, the `else_is_unreachable` flag, and
the computation for the `else`/fall-through contributor (used only when
the flag is off); merge all contributors conjunctively and absorb. -/
def ucIfFinish (L : List String) (asg : Asg) (d1 : List String)
    (live : Except PyErr (List String × List Asg)) (elsUnreach : Bool)
    (elseStep : Except PyErr (List String × List Asg)) :
    Except PyErr TRes := do
  let (d2, cs) ← live
  let (d3, csE) ←
    if elsUnreach then Except.ok (([] : List String), ([] : List Asg))
    else elseStep
  Except.ok ⟨_absorb_assignments L (_merge_assignments (cs ++ csE)),
    asg, true, d1 ++ d2 ++ d3⟩

/-- The glue of `visit_try_stmt` (lines 404-436) over the already-started
sub-computations: bind the try-body step (diagnostics plus its exit state
when reachable), the handler-loop step, then handle the `else` clause —
when the try body's end is unreachable the `else` body is *not* analyzed
and `else_assignments` is `None`; when there is no `else` clause the
body's exit state is contributed twice (itself and
`block_assignments[0].copy()`); when there is one, it is analyzed from
the body's exit state with `self.assignments` re-bound to the *same dict
object* as the body's contribution, whose final content is `r.aliasAsg`,
while `else_assignments = self._check(o.else_body)` is `None` because
`_check` returns nothing.  Merge and absorb; then, when a `finally` body
is present, analyze it from the merged state and absorb
`assignments = self._check(o.finally_body)` — which is again `None`, so
every local comes out marked assigned. -/
def ucTryFinish (L : List String) (asg : Asg)
    (bodyStep : Except PyErr (List String × Option Asg))
    (handlersStep : Except PyErr (List String × List Asg))
    (elseRun : Option (Asg → Except PyErr TRes))
    (finRun : Option (Asg → Except PyErr TRes)) : Except PyErr TRes := do
  let (dB, cB) ← bodyStep
  let (dH, cHs) ← handlersStep
  let (dE, contribs) ←
    match cB with
    | Option.none => Except.ok (([] : List String), cHs)
    | Option.some a =>
      match elseRun with
      | Option.none => Except.ok (([] : List String), a :: (cHs ++ [a]))
      | Option.some run =>
          run a >>= fun r => Except.ok (r.diags, r.aliasAsg :: cHs)
  let asg1 := _absorb_assignments L (_merge_assignments contribs)
  match finRun with
  | Option.none => Except.ok ⟨asg1, asg, true, dB ++ dH ++ dE⟩
  | Option.some run =>
      run asg1 >>= fun rf =>
        Except.ok ⟨_absorb_assignments L Option.none, asg, true,
          dB ++ dH ++ dE ++ rf.diags⟩

/-- One step of the branch loop (`_merge_blocks` body): bind the branch
computation; when the branch's condition was `_is_true` the loop breaks
here, otherwise append the remaining branches' results. -/
def ucLiveStep (step : Except PyErr (List String × List Asg)) (stop : Bool)
    (rest : Except PyErr (List String × List Asg)) :
    Except PyErr (List String × List Asg) := do
  let (d, c) ← step
  if stop then Except.ok (d, c)
  else do
    let (d2, cs) ← rest
    Except.ok (d ++ d2, c ++ cs)

/-- One iteration of `visit_try_stmt`'s handler loop over the
already-started handler-body run: the sub-checker visits the type
expression, records and visits the binding name, runs the handler body,
on Python 3 records the implicit deletion of the binding, and contributes
its final state iff the handler body's end is reachable (`hbDead` is
`_is_end_unreachable` of the handler body). -/
def ucHandlerStep (L : List String) (py3 : Bool) (asg : Asg)
    (tp : OptExpr) (v : Option NameData) (hbDead : Bool)
    (run : Except PyErr TRes)
    (rest : Except PyErr (List String × List Asg)) :
    Except PyErr (List String × List Asg) := do
  let d1 := checkOptExpr L asg tp
  let d2 := match v with
    | Option.none => []
    | Option.some vd => checkExpr L (handlerEntry L v asg) vd.toExpr
  let r ← run
  let asgF := match v with
    | Option.none => r.asg
    | Option.some vd =>
        if py3 then _record_deletion L vd.name r.asg else r.asg
  let contrib := if hbDead then [] else [asgF]
  let (dR, cR) ← rest
  Except.ok (d1 ++ d2 ++ r.diags ++ dR, contrib ++ cR)

mutual
/-- `_UsageChecker`'s statement visit.  Each arm mirrors one `visit_*`
method (or the inherited traversal) of `checkunbound.py`, with the
post-processing factored into the named combinators above:

  * assignment: record every target name first (the source records before
    calling `super()`), then traverse rvalue and lvalue expressions under
    the *updated* state;
  * `expression`/`return`/`raise`/`assert`: traverse subexpressions;
  * `if`: visit conditions (`condDiags`), process the bodies of branches
    whose condition is not `_is_false` with a stop after a `_is_true`
    condition (`ucRunLive`), then `ucIfFinish` with the `else` body (or,
    when absent, a copy of the current state —
    `_get_block_assignments(None)`) as the final contributor, dropped when
    a condition was `_is_true`; a branch whose end is unreachable is not
    analyzed and contributes nothing;
  * `while`: `ucIfFinish` over `[body, else]` with the `else` dropped
    when the condition is `_is_true`;
  * `for`: visit the iterable, then evaluate the call arguments of
    `_visit_bodies_and_else` — which evaluates the undefined name
    `_get_lvalue_names` and raises `NameError` (diagnostics already
    emitted are not modelled on the error path);
  * `try`: `ucTryFinish` over the body run, the handler loop, and
    closures running the `else`/`finally` bodies;
  * `global` declarations and `pass`/`break`/`continue` do nothing. -/
def ucStmt (L : List String) (py3 : Bool) (asg : Asg) (s : Stmt) :
    Except PyErr TRes :=
  match s with
  | Stmt.passS => Except.ok ⟨asg, asg, false, []⟩
  | Stmt.breakS => Except.ok ⟨asg, asg, false, []⟩
  | Stmt.continueS => Except.ok ⟨asg, asg, false, []⟩
  | Stmt.globalS _ => Except.ok ⟨asg, asg, false, []⟩
  | Stmt.exprS e => Except.ok ⟨asg, asg, false, checkExpr L asg e⟩
  | Stmt.returnS oe => Except.ok ⟨asg, asg, false, checkOptExpr L asg oe⟩
  | Stmt.raiseS oe => Except.ok ⟨asg, asg, false, checkOptExpr L asg oe⟩
  | Stmt.assertS e => Except.ok ⟨asg, asg, false, checkExpr L asg e⟩
  | Stmt.assignS lvs rv => do
      let names ← assignLocals lvs
      let asg1 := recordAll L names asg
      Except.ok ⟨asg1, asg1, false,
        checkExpr L asg1 rv ++ checkExprList L asg1 lvs⟩
  | Stmt.forS _ iter _ _ =>
      let _ := checkExpr L asg iter
      Except.error (PyErr.nameError "_get_lvalue_names")
  | Stmt.ifS br els =>
      ucIfFinish L asg (condDiags L asg br) (ucRunLive L py3 asg br)
        (elseIsUnreachable br) (ucElseStep L py3 asg els)
  | Stmt.whileS cond body els =>
      ucIfFinish L asg (checkExpr L asg cond)
        (if _is_end_unreachable body then
           Except.ok (([] : List String), ([] : List Asg))
         else
           ucBlock L py3 asg body >>= fun r => Except.ok (r.diags, [r.asg]))
        (_is_true cond) (ucElseStep L py3 asg els)
  | Stmt.tryS body hs els fin =>
      ucTryFinish L asg
        (if _is_end_unreachable body then
           Except.ok (([] : List String), (Option.none : Option Asg))
         else
           ucBlock L py3 asg body >>= fun r =>
             Except.ok (r.diags, Option.some r.asg))
        (ucHandlers L py3 asg hs)
        (ucOptBlockRun L py3 els) (ucOptBlockRun L py3 fin)

/-- `Block.accept` under a `_UsageChecker`: thread the state through the
statements, accumulate diagnostics, and track the entry dict's fate for
the aliasing in `visit_try_stmt`. -/
def ucBlock (L : List String) (py3 : Bool) (asg : Asg) (b : Block) :
    Except PyErr TRes :=
  match b with
  | Block.nil => Except.ok ⟨asg, asg, false, []⟩
  | Block.cons s ss => do
      let r1 ← ucStmt L py3 asg s
      let r2 ← ucBlock L py3 r1.asg ss
      Except.ok ⟨r2.asg,
        if r1.rebound then r1.aliasAsg else r2.aliasAsg,
        r1.rebound || r2.rebound,
        r1.diags ++ r2.diags⟩

/-- The contribution-collecting part of `visit_if_stmt` +
`_merge_blocks`: process the branches in source order; a branch whose
condition is `_is_false` is skipped; otherwise, when the branch body's
end is reachable, a fresh sub-checker runs it from a copy of the current
state and its exit state is a contributor (`_get_block_assignments`); the
loop stops after a `_is_true` condition.  Returns the diagnostics from
the analyzed bodies and the contributor list. -/
def ucRunLive (L : List String) (py3 : Bool) (asg : Asg) (br : BranchList) :
    Except PyErr (List String × List Asg) :=
  match br with
  | BranchList.nil => Except.ok ([], [])
  | BranchList.cons e b rest =>
      if _is_false e then ucRunLive L py3 asg rest
      else
        ucLiveStep
          (if _is_end_unreachable b then
             Except.ok (([] : List String), ([] : List Asg))
           else
             ucBlock L py3 asg b >>= fun r => Except.ok (r.diags, [r.asg]))
          (_is_true e)
          (ucRunLive L py3 asg rest)

/-- The handler loop of `visit_try_stmt`: each handler gets a fresh
sub-checker copying the *current* (pre-try) state — `_UsageChecker(self)`
runs before anything mutates `self.assignments`, so this is the state
from before the try statement. -/
def ucHandlers (L : List String) (py3 : Bool) (asg : Asg)
    (hs : HandlerList) : Except PyErr (List String × List Asg) :=
  match hs with
  | HandlerList.nil => Except.ok ([], [])
  | HandlerList.cons tp v hb rest =>
      ucHandlerStep L py3 asg tp v (_is_end_unreachable hb)
        (ucBlock L py3 (handlerEntry L v asg) hb)
        (ucHandlers L py3 asg rest)

/-- The `else`/fall-through contributor of `visit_if_stmt` and
`visit_while_stmt`: `_get_block_assignments(None)` — a copy of the current
state — when there is no `else` body, nothing when the `else` body's end
is unreachable (it is then not analyzed), and otherwise a fresh
sub-checker's run of the `else` body from a copy of the current state. -/
def ucElseStep (L : List String) (py3 : Bool) (asg : Asg) (els : OptBlock) :
    Except PyErr (List String × List Asg) :=
  match els with
  | OptBlock.none => Except.ok (([] : List String), [asg])
  | OptBlock.some eb =>
      if _is_end_unreachable eb then
        Except.ok (([] : List String), ([] : List Asg))
      else
        ucBlock L py3 asg eb >>= fun r => Except.ok (r.diags, [r.asg])

/-- The `else`/`finally` runner handed to `ucTryFinish`: analyzing the
optional block from a given start state (`o.accept(self)` inside
`_check`), or nothing when the clause is absent. -/
def ucOptBlockRun (L : List String) (py3 : Bool) (ob : OptBlock) :
    Option (Asg → Except PyErr TRes) :=
  match ob with
  | OptBlock.none => Option.none
  | OptBlock.some b => Option.some (fun a => ucBlock L py3 a b)
end

/-- Whether a checker run completed without a Python runtime error. -/
def ucOk (r : Except PyErr TRes) : Bool :=
  match r with
  | Except.ok _ => true
  | Except.error _ => false

/-- The diagnostics of a completed checker run. -/
def ucDiags (r : Except PyErr TRes) : Option (List String) :=
  match r with
  | Except.ok t => Option.some t.diags
  | Except.error _ => Option.none

/-- The final assignment state of a completed checker run, at one name. -/
def ucAsgAt (r : Except PyErr TRes) (n : String) : Option Bool :=
  match r with
  | Except.ok t => Option.some (t.asg n)
  | Except.error _ => Option.none

/-- The Python runtime error of a failed checker run. -/
def ucErr (r : Except PyErr TRes) : Option PyErr :=
  match r with
  | Except.ok _ => Option.none
  | Except.error e => Option.some e

/-- Whether a completed checker run emitted a diagnostic for `x`. -/
def diagsContain (r : Except PyErr TRes) (x : String) : Bool :=
  match r with
  | Except.ok t => t.diags.contains x
  | Except.error _ => false

/-- The error of a `UsageChecker.__init__` run, if any. -/
def initErr (r : Except PyErr InitResult) : Option PyErr :=
  match r with
  | Except.ok _ => Option.none
  | Except.error e => Option.some e

/-- The locals of a completed `UsageChecker.__init__` run. -/
def initLocals (r : Except PyErr InitResult) : Option (List String) :=
  match r with
  | Except.ok i => Option.some i.locals
  | Except.error _ => Option.none

/-- The statement followed by a read of `x` (an unresolved bare name
expression), for stating "a subsequent read warns" consequences. -/
def readAfter (s : Stmt) (x : String) : Block :=
  Block.cons s (Block.cons (Stmt.exprS (Expr.nameE x "" Option.none)) Block.nil)

/-- The live branches of an `if`/`elif`/`else` chain, as the claims
describe them: each branch whose condition is not provably false, up to
and including a branch with a provably true condition (branches after it,
and the `else`, are excluded); when no condition is provably true, the
`else` body — or, when there is none, the implicit fall-through path,
represented by `Option.none` — is the final live branch.  `optOfEls` maps
the optional `else` body to that final live-branch entry. -/
def optOfEls (els : OptBlock) : Option Block :=
  match els with
  | OptBlock.none => Option.none
  | OptBlock.some b => Option.some b

/-- The live branches of an `if`/`elif`/`else` chain, as the claims
describe them (continued): see `liveBranches`. -/
def liveBranches (br : BranchList) (els : OptBlock) : List (Option Block) :=
  match br with
  | BranchList.nil => [optOfEls els]
  | BranchList.cons e b rest =>
      if _is_false e then liveBranches rest els
      else if _is_true e then [Option.some b]
      else Option.some b :: liveBranches rest els

/-- The explicit live branches of the chain itself (no `else`/fall-through
slot): what `visit_if_stmt`'s loop collects into `blocks`. -/
def liveB (br : BranchList) : List (Option Block) :=
  match br with
  | BranchList.nil => []
  | BranchList.cons e b rest =>
      if _is_false e then liveB rest
      else if _is_true e then [Option.some b]
      else Option.some b :: liveB rest

/-- End-unreachability of a live branch; the fall-through path always has
a reachable end. -/
def branchEndUnreach (ob : Option Block) : Bool :=
  match ob with
  | Option.none => false
  | Option.some b => _is_end_unreachable b

/-- The exit assignment state of one live branch at one name, obtained by
running a fresh sub-checker on the branch from the pre-`if` state; the
fall-through path's exit state is the pre-`if` state itself. -/
def branchExitAt (L : List String) (py3 : Bool) (asg : Asg)
    (ob : Option Block) (x : String) : Option Bool :=
  match ob with
  | Option.none => Option.some (asg x)
  | Option.some b =>
      match ucBlock L py3 asg b with
      | Except.ok r => Option.some (r.asg x)
      | Except.error _ => Option.none

/-- "Every live branch whose end is reachable marks `x` assigned at its
end", as a decidable predicate over the live branches. -/
def liveAllAssigned (L : List String) (py3 : Bool) (asg : Asg)
    (br : BranchList) (els : OptBlock) (x : String) : Bool :=
  (liveBranches br els).all
    (fun ob =>
      branchEndUnreach ob ||
        (branchExitAt L py3 asg ob x == Option.some true))

/-- The all-unassigned starting snapshot used by the concrete programs
below (a function whose locals are all still unassigned). -/
def asgFalse : Asg := fun _ => false

/-- C1 fixture: `try: pass / finally: pass` then a read of `z`, in a scope
whose only local `z` is unassigned. -/
def c1Pass : Block := Block.cons Stmt.passS Block.nil

/-- C1 fixture: the try/finally statement. -/
def c1Try : Stmt :=
  Stmt.tryS c1Pass HandlerList.nil OptBlock.none (OptBlock.some c1Pass)

/-- C1 fixture: the try/finally followed by a read of `z`. -/
def c1Prog : Block := readAfter c1Try "z"

/-- C1 contrast fixture: the same try statement with an `except` clause
instead of the `finally` clause, followed by the read of `z`. -/
def c1ProgNoFinally : Block :=
  readAfter
    (Stmt.tryS c1Pass
      (HandlerList.cons
        (OptExpr.some (Expr.nameE "E" "builtins.Exception" Option.none))
        Option.none c1Pass HandlerList.nil)
      OptBlock.none OptBlock.none)
    "z"

/-- C2 fixture: a function body consisting of `pass`. -/
def c2Body : Block := Block.cons Stmt.passS Block.nil

/-- C2 contrast fixture: a function body consisting of `x = 1`. -/
def c2AssignBody : Block :=
  Block.cons
    (Stmt.assignS (ExprList.cons (Expr.nameE "x" "" Option.none) ExprList.nil)
      (Expr.intE 1))
    Block.nil

/-- C2 fixture: a function body consisting of `global g`. -/
def c2GlobalBody : Block := Block.cons (Stmt.globalS ["g"]) Block.nil

/-- C3/C6 fixture: a call expression `n()` (whose key is absent). -/
def cCall (n : String) : Expr :=
  Expr.callE (Expr.nameE n "" Option.none) ExprList.nil false

/-- C3 fixture: `f() + g()`. -/
def c3e1 : Expr := Expr.opE "+" (cCall "f") (cCall "g")

/-- C3 fixture: `h() + k()`, syntactically different from `c3e1`. -/
def c3e2 : Expr := Expr.opE "+" (cCall "h") (cCall "k")

/-- C4 fixture: a block consisting of `return`. -/
def c4Ret : Block := Block.cons (Stmt.returnS OptExpr.none) Block.nil

/-- C4 fixture: one handler `except E: return`. -/
def c4Handlers : HandlerList :=
  HandlerList.cons
    (OptExpr.some (Expr.nameE "E" "builtins.Exception" Option.none))
    Option.none c4Ret HandlerList.nil

/-- C4 fixture: `try: return / except E: return`. -/
def c4Try : Stmt := Stmt.tryS c4Ret c4Handlers OptBlock.none OptBlock.none

/-- C5 fixture: the local `y`. -/
def c5Y : Expr := Expr.nameE "y" "" Option.none

/-- C5 fixture: a handler `except E: raise` (end unreachable, so it is not
a join contributor). -/
def c5Handlers : HandlerList :=
  HandlerList.cons
    (OptExpr.some (Expr.nameE "E" "builtins.Exception" Option.none))
    Option.none (Block.cons (Stmt.raiseS OptExpr.none) Block.nil)
    HandlerList.nil

/-- C5 fixture: the else body `if True: pass` + `y = 1`: the `if`
statement re-binds the sub-checker's `assignments`, so the later `y = 1`
no longer reaches the dict aliased as the try body's contribution. -/
def c5Else : Block :=
  Block.cons
    (Stmt.ifS
      (BranchList.cons (Expr.nameE "True" "builtins.True" Option.none)
        (Block.cons Stmt.passS Block.nil) BranchList.nil)
      OptBlock.none)
    (Block.cons
      (Stmt.assignS (ExprList.cons c5Y ExprList.nil) (Expr.intE 1))
      Block.nil)

/-- C5 fixture: `try: pass / except E: raise / else: (if True: pass); y = 1`
followed by a read of `y`. -/
def c5Try : Stmt :=
  Stmt.tryS (Block.cons Stmt.passS Block.nil) c5Handlers
    (OptBlock.some c5Else) OptBlock.none

/-- C5 fixture: the try statement followed by the read. -/
def c5Prog : Block := readAfter c5Try "y"

/-- C6 fixture: `*f()` — a star expression over a keyless call. -/
def c6Star : Expr := Expr.starE true (cCall "f")

/-- C8 fixture: `for i in xs: pass`. -/
def c8For : Stmt :=
  Stmt.forS (Expr.nameE "i" "" Option.none)
    (Expr.nameE "xs" "" Option.none)
    (Block.cons Stmt.passS Block.nil) OptBlock.none

/-- C10 fixture: the local `x`. -/
def c10X : Expr := Expr.nameE "x" "" Option.none

/-- C10 fixture: `if 2: x = 1` followed by a read of `x`. -/
def c10Prog : Block :=
  readAfter
    (Stmt.ifS
      (BranchList.cons (Expr.intE 2)
        (Block.cons
          (Stmt.assignS (ExprList.cons c10X ExprList.nil) (Expr.intE 1))
          Block.nil)
        BranchList.nil)
      OptBlock.none)
    "x"

/-- C9 fixture: a try body that assigns `x`. -/
def c9Body : Block :=
  Block.cons
    (Stmt.assignS (ExprList.cons (Expr.nameE "x" "" Option.none) ExprList.nil)
      (Expr.intE 1))
    Block.nil

/-- Structural induction principle for `BranchList` alone (the generic
`induction` tactic cannot be used on one member of a mutual family). -/
def branchListInduction (P : BranchList → Prop) (h1 : P BranchList.nil)
    (h2 : ∀ e b rest, P rest → P (BranchList.cons e b rest)) :
    ∀ br, P br
  | BranchList.nil => h1
  | BranchList.cons e b rest => h2 e b rest (branchListInduction P h1 h2 rest)

/-- C7 witness fixture: the starting state of a scope with locals `x`
(unassigned) and `c` (assigned). -/
def c7Asg : Asg := fun n => n == "c"

/-- C7 witness fixture: the single branch `if c: x = 1` (no else). -/
def c7Br : BranchList :=
  BranchList.cons (Expr.nameE "c" "" Option.none)
    (Block.cons
      (Stmt.assignS
        (ExprList.cons (Expr.nameE "x" "" Option.none) ExprList.nil)
        (Expr.intE 1))
      Block.nil)
    BranchList.nil

/-- Claim C1.  The claim says that with a `finally` clause present, the
finally body's resulting state becomes the state after the whole try
statement, so a local assigned on no path (here `z`) stays unassigned and
a subsequent read warns.  The code instead absorbs
`assignments = self._check(o.finally_body)` — which is always `None`,
since `_check` returns nothing — so after any try/finally *every* local is
marked assigned and the subsequent read of `z` produces no diagnostic.
Contrast (second conjunct): the same try statement with an `except` clause
instead of the `finally` leaves `z` unassigned and the read warns, so the
clobbering is specific to the finally path. -/
theorem c1_try_finally_marks_all_assigned :
    (ucDiags (ucBlock ["z"] true asgFalse c1Prog) = Option.some [] ∧
      ucAsgAt (ucBlock ["z"] true asgFalse c1Prog) "z" = Option.some true) ∧
    (ucDiags (ucBlock ["z"] true asgFalse c1ProgNoFinally) =
        Option.some ["z"] ∧
      ucAsgAt (ucBlock ["z"] true asgFalse c1ProgNoFinally) "z" =
        Option.some false) := by
  decide

/-- Claim C2.  The claim says initialization always succeeds, with locals
= collected ∪ parameters − globals and parameters marked assigned.  In the
code `_get_locals` returns the *dict* created by `LocalsCollector`'s
`self.locals = {}`, and `UsageChecker.__init__` calls the set methods
`locals.add(name)` (for each parameter) and `locals.discard(name)` (for
each global) on it, so initialization raises `AttributeError` whenever
there is at least one parameter or one global declaration.  Contrast
(third conjunct): with no parameters and no globals neither set method is
reached and initialization yields the collected locals. -/
theorem c2_init_crashes_on_parameter :
    initErr (usageCheckerInit c2Body ["p"]) =
      Option.some (PyErr.attributeError "dict" "add") ∧
    initErr (usageCheckerInit c2GlobalBody []) =
      Option.some (PyErr.attributeError "dict" "discard") ∧
    initLocals (usageCheckerInit c2AssignBody []) = Option.some ["x"] := by
  decide

/-- Claim C3.  The claim says two present keys are equal iff the
originating expressions are syntactically identical.  But `visit_op_expr`
builds `('Binary', op, literal_hash(left), literal_hash(right))` without
checking the children for absence, so the syntactically different
`f() + g()` and `h() + k()` both get the *present* key
`('Binary', '+', None, None)` — equal keys for different expressions. -/
theorem c3_distinct_exprs_equal_present_keys :
    c3e1 ≠ c3e2 ∧
    literal_hash c3e1 = Option.some (Key.binary "+" Key.noneK Key.noneK) ∧
    literal_hash c3e2 = literal_hash c3e1 := by
  decide

/-- Claim C4.  The claim says the reachability analysis reports a try
statement's end unreachable iff the try body, every handler, and the
else/finally bodies all have unreachable ends — e.g. `try: return /
except E: return`.  `ReachabilityChecker.visit_try_stmt` computes exactly
that conjunction (`tryComputedUnreachable` here, true for this input) but
`return`s it instead of assigning `self.is_end_unreachable`, so the
walker still reports the end reachable. -/
theorem c4_try_never_reported_unreachable :
    tryComputedUnreachable c4Ret c4Handlers OptBlock.none OptBlock.none =
      true ∧
    _is_end_unreachable (Block.cons c4Try Block.nil) = false := by
  decide

set_option maxHeartbeats 2000000 in
/-- Claim C5.  The claim says the else body's resulting exit state
replaces the try body's exit state in the join.  The code sets
`self.assignments = block_assignments[0]` and analyzes the else body in
place, but `else_assignments = self._check(o.else_body)` is always `None`,
so the merge sees only the *final content of the aliased dict* — which
stops receiving updates as soon as any statement of the else body re-binds
`self.assignments` (here the `if True: pass`).  The else body's exit state
has `y` assigned (third conjunct), yet after the try statement `y` is
unassigned and the read warns. -/
theorem c5_else_exit_not_contributed :
    ucDiags (ucBlock ["y"] true asgFalse c5Prog) = Option.some ["y"] ∧
    ucAsgAt (ucBlock ["y"] true asgFalse c5Prog) "y" = Option.some false ∧
    ucAsgAt (ucBlock ["y"] true asgFalse c5Else) "y" = Option.some true := by
  decide

/-- Claim C6.  The claim says absence propagates through every compound
key form, so no present key ever contains the absent sentinel.  But
`visit_star_expr` (likewise unary/member/binary/comparison) wraps
`literal_hash` of its operand without an absence check: `*f()` gets the
present key `('Star', None)` containing the sentinel — and `*g()` gets
the same key, so different expressions collide. -/
theorem c6_absent_child_in_present_key :
    literal_hash (cCall "f") = Option.none ∧
    literal_hash c6Star = Option.some (Key.star Key.noneK) ∧
    literal_hash (Expr.starE true (cCall "g")) = literal_hash c6Star := by
  decide

/-- Claim C8.  The claim says reading a `for` loop's index (or a variable
assigned only in its body) right after the loop always warns.  The code's
`visit_for_stmt` evaluates `_get_lvalue_names(o.index)` — a name defined
nowhere in the module — so analyzing *any* `for` statement raises
`NameError` and no diagnostic is ever produced. -/
theorem c8_for_raises_nameerror :
    ucErr (ucStmt ["i"] true asgFalse c8For) =
      Option.some (PyErr.nameError "_get_lvalue_names") ∧
    ucDiags (ucBlock ["i"] true asgFalse (readAfter c8For "i")) =
      Option.none := by
  decide

/-- Claim C10.  Literal-condition folding holds a condition provably true
exactly when it is a name resolving to `builtins.True` or the literal `1`,
and provably false exactly for `builtins.False` or the literal `0`
(`_is_true`/`_is_false`, shared by both analyzers); any other expression
is undetermined, so `if 2: x = 1` keeps the fall-through contributor and a
following read of `x` still warns. -/
theorem c10_literal_condition_folding :
    (∀ e : Expr, _is_true e = true ↔
      ((∃ n node, e = Expr.nameE n "builtins.True" node) ∨
        e = Expr.intE 1)) ∧
    (∀ e : Expr, _is_false e = true ↔
      ((∃ n node, e = Expr.nameE n "builtins.False" node) ∨
        e = Expr.intE 0)) ∧
    ucDiags (ucBlock ["x"] true asgFalse c10Prog) = Option.some ["x"] := by
  refine ⟨?_, ?_, by decide⟩ <;>
    · intro e
      cases e <;> simp [_is_true, _is_false]

/-- Reduction of an `Except` bind on a success value. -/
theorem ebind_ok {α β : Type} (a : α) (f : α → Except PyErr β) :
    (Except.ok a >>= f) = f a := rfl

/-- Reduction of an `Except` bind on an error value. -/
theorem ebind_error {α β : Type} (e : PyErr) (f : α → Except PyErr β) :
    ((Except.error e : Except PyErr α) >>= f) = Except.error e := rfl

/-- A block starting with a bare read of `x`, analyzed from a state where
the local `x` is unassigned, emits the diagnostic for `x` first. -/
theorem ucBlock_read_first (L : List String) (py3 : Bool) (asg2 : Asg)
    (x fullx : String) (nd : Option Nat) (hbRest : Block) (r : TRes)
    (hx : x ∈ L) (hasg2 : asg2 x = false)
    (h : ucBlock L py3 asg2
      (Block.cons (Stmt.exprS (Expr.nameE x fullx nd)) hbRest) =
      Except.ok r) :
    ∃ rest, r.diags = x :: rest := by
  have hread : checkExpr L asg2 (Expr.nameE x fullx nd) = [x] := by
    simp [checkExpr, hx, hasg2]
  have hunf : ucBlock L py3 asg2
      (Block.cons (Stmt.exprS (Expr.nameE x fullx nd)) hbRest) =
      (ucBlock L py3 asg2 hbRest >>= fun r2 =>
        Except.ok ⟨r2.asg, r2.aliasAsg, r2.rebound,
          checkExpr L asg2 (Expr.nameE x fullx nd) ++ r2.diags⟩) := rfl
  rw [hunf] at h
  cases hrb2 : ucBlock L py3 asg2 hbRest with
  | error e => rw [hrb2, ebind_error] at h; exact Except.noConfusion h
  | ok r2 =>
    rw [hrb2, ebind_ok] at h
    cases h
    exact ⟨r2.diags, by simp [hread]⟩

/-- If the handler-body run of a `ucHandlerStep` emits a diagnostic for
`x`, the whole handler loop's diagnostics contain it. -/
theorem ucHandlerStep_first_diag (L : List String) (py3 : Bool) (asg : Asg)
    (tp : OptExpr) (v : Option NameData) (hbDead : Bool)
    (run : Except PyErr TRes)
    (rest : Except PyErr (List String × List Asg))
    (x : String) (d : List String) (cs : List Asg)
    (hrun : ∀ r : TRes, run = Except.ok r → x ∈ r.diags)
    (h : ucHandlerStep L py3 asg tp v hbDead run rest = Except.ok (d, cs)) :
    x ∈ d := by
  simp only [ucHandlerStep] at h
  cases hrb : run with
  | error e => rw [hrb, ebind_error] at h; exact Except.noConfusion h
  | ok r =>
    rw [hrb, ebind_ok] at h
    cases hrh : rest with
    | error e => rw [hrh, ebind_error] at h; exact Except.noConfusion h
    | ok pr =>
      rw [hrh, ebind_ok] at h
      cases h
      simp [hrun r hrb]

/-- A handler whose body starts with a read of `x` warns whenever `x` is
a local unassigned in the state the handler loop starts from (the pre-try
state) — regardless of the exception-binding name, provided it is not `x`
itself. -/
theorem handler_read_warns
    (L : List String) (py3 : Bool) (asg : Asg) (x fullx : String)
    (nd : Option Nat) (tp : OptExpr) (v : Option NameData)
    (hbRest : Block) (hrest : HandlerList)
    (hx : x ∈ L) (hxa : asg x = false)
    (hv : ∀ vd, v = Option.some vd → vd.name ≠ x)
    (d : List String) (cs : List Asg)
    (h : ucHandlers L py3 asg
      (HandlerList.cons tp v
        (Block.cons (Stmt.exprS (Expr.nameE x fullx nd)) hbRest) hrest) =
      Except.ok (d, cs)) :
    x ∈ d := by
  have hentry : handlerEntry L v asg x = false := by
    cases v with
    | none => exact hxa
    | some vd =>
      have hne : x ≠ vd.name := fun hh => (hv vd rfl) hh.symm
      simp only [handlerEntry, _record_assignment]
      split
      · simp [updateAsg, hne, hxa]
      · exact hxa
  simp only [ucHandlers] at h
  refine ucHandlerStep_first_diag L py3 asg tp v _ _ _ x d cs ?_ h
  intro r hr
  obtain ⟨rest, hrd⟩ :=
    ucBlock_read_first L py3 (handlerEntry L v asg) x fullx nd hbRest r
      hx hentry hr
  simp [hrd]

/-- Diagnostics produced by the handler loop survive into the diagnostics
of the whole try statement, whatever the body, else and finally parts do. -/
theorem ucTryFinish_handler_diag (L : List String) (asg : Asg)
    (bodyStep : Except PyErr (List String × Option Asg))
    (handlersStep : Except PyErr (List String × List Asg))
    (elseRun finRun : Option (Asg → Except PyErr TRes)) (x : String)
    (E : Except PyErr TRes)
    (hE : E = ucTryFinish L asg bodyStep handlersStep elseRun finRun)
    (hok : ucOk E = true)
    (hmem : ∀ dH cHs, handlersStep = Except.ok (dH, cHs) → x ∈ dH) :
    diagsContain E x = true := by
  subst hE
  simp only [ucTryFinish] at hok ⊢
  cases bodyStep with
  | error e => simp [ebind_error, ucOk] at hok
  | ok pB =>
    obtain ⟨dB, cB⟩ := pB
    simp only [ebind_ok] at hok ⊢
    cases handlersStep with
    | error e => simp [ebind_error, ucOk] at hok
    | ok pH =>
      obtain ⟨dH, cHs⟩ := pH
      simp only [ebind_ok] at hok ⊢
      have hxd : x ∈ dH := hmem dH cHs rfl
      cases cB with
      | none =>
        simp only [ebind_ok] at hok ⊢
        cases finRun with
        | none => simp [diagsContain, hxd]
        | some run =>
          dsimp only at hok ⊢
          cases hF : run (_absorb_assignments L (_merge_assignments cHs)) with
          | error e => rw [hF, ebind_error] at hok; simp [ucOk] at hok
          | ok rf => simp [ebind_ok, diagsContain, hxd]
      | some a =>
        dsimp only at hok ⊢
        cases elseRun with
        | none =>
          dsimp only at hok ⊢
          try simp only [ebind_ok] at hok ⊢
          cases finRun with
          | none => simp [diagsContain, hxd]
          | some run =>
            dsimp only at hok ⊢
            cases hF : run (_absorb_assignments L
                (_merge_assignments (a :: (cHs ++ [a])))) with
            | error e => rw [hF, ebind_error] at hok; simp [ucOk] at hok
            | ok rf => simp [ebind_ok, diagsContain, hxd]
        | some run =>
          dsimp only at hok ⊢
          cases hE : run a with
          | error e =>
            rw [hE, ebind_error, ebind_error] at hok; simp [ucOk] at hok
          | ok r =>
            rw [hE] at hok
            simp only [ebind_ok] at hok ⊢
            cases finRun with
            | none => simp [diagsContain, hxd]
            | some frun =>
              dsimp only at hok ⊢
              cases hF : frun (_absorb_assignments L
                  (_merge_assignments (r.aliasAsg :: cHs))) with
              | error e => rw [hF, ebind_error] at hok; simp [ucOk] at hok
              | ok rf => simp [ebind_ok, diagsContain, hxd]

/-- Claim C9.  Each except handler is analyzed starting from an
independent copy of the assignment state from immediately before the try
statement (`_UsageChecker(self)` copies `self.assignments`, still
untouched at that point), not from the try body's exit state: whatever the
try body is — even one that assigns `x` — a handler whose body begins with
a read of a local `x` that was unassigned before the try statement
produces a diagnostic for `x` (provided the handler's binding name is not
`x` itself, which would mark it assigned). -/
theorem c9_handler_from_pre_try
    (L : List String) (py3 : Bool) (asg : Asg) (x fullx : String)
    (nd : Option Nat) (tp : OptExpr) (v : Option NameData)
    (hbRest : Block) (hrest : HandlerList) (body : Block)
    (els fin : OptBlock)
    (hx : x ∈ L) (hxa : asg x = false)
    (hv : ∀ vd, v = Option.some vd → vd.name ≠ x)
    (hok : ucOk (ucStmt L py3 asg
      (Stmt.tryS body
        (HandlerList.cons tp v
          (Block.cons (Stmt.exprS (Expr.nameE x fullx nd)) hbRest) hrest)
        els fin)) = true) :
    diagsContain (ucStmt L py3 asg
      (Stmt.tryS body
        (HandlerList.cons tp v
          (Block.cons (Stmt.exprS (Expr.nameE x fullx nd)) hbRest) hrest)
        els fin)) x = true := by
  have heq : ucStmt L py3 asg
      (Stmt.tryS body
        (HandlerList.cons tp v
          (Block.cons (Stmt.exprS (Expr.nameE x fullx nd)) hbRest) hrest)
        els fin) =
      ucTryFinish L asg
        (if _is_end_unreachable body then
           Except.ok (([] : List String), (Option.none : Option Asg))
         else
           ucBlock L py3 asg body >>= fun r =>
             Except.ok (r.diags, Option.some r.asg))
        (ucHandlers L py3 asg
          (HandlerList.cons tp v
            (Block.cons (Stmt.exprS (Expr.nameE x fullx nd)) hbRest) hrest))
        (ucOptBlockRun L py3 els) (ucOptBlockRun L py3 fin) := by
    simp only [ucStmt]
  refine ucTryFinish_handler_diag L asg _ _ _ _ x _ heq hok ?_
  intro dH cHs hH
  exact handler_read_warns L py3 asg x fullx nd tp v hbRest hrest
    hx hxa hv dH cHs hH

/-- Witness for C9: the concrete program `try: x = 1 / except: x` with
local `x` unassigned before the try statement — the handler's read of `x`
warns even though the try body assigns `x`. -/
theorem c9_handler_from_pre_try_witness :
    diagsContain (ucStmt ["x"] true asgFalse
      (Stmt.tryS c9Body
        (HandlerList.cons OptExpr.none Option.none
          (Block.cons (Stmt.exprS (Expr.nameE "x" "" Option.none)) Block.nil)
          HandlerList.nil)
        OptBlock.none OptBlock.none)) "x" = true :=
  c9_handler_from_pre_try ["x"] true asgFalse "x" "" Option.none
    OptExpr.none Option.none Block.nil HandlerList.nil c9Body
    OptBlock.none OptBlock.none (by decide) rfl
    (fun vd h => Option.noConfusion h) (by decide)

/-- Boolean equality of an optional boolean with `some true`. -/
theorem beq_some_true (b : Bool) : (Option.some b == Option.some true) = b := by
  cases b <;> rfl

/-- Pointwise value of merge-then-absorb at a tracked local: the
conjunction over the contributors, `true` when there are none
(`_absorb_assignments` of `None` marks every local assigned). -/
theorem absorb_merge_all (L : List String) (cs : List Asg) (x : String)
    (hx : x ∈ L) :
    _absorb_assignments L (_merge_assignments cs) x =
      cs.all (fun a => a x) := by
  cases cs with
  | nil => simp [_merge_assignments, _absorb_assignments, hx]
  | cons a rest => rfl

/-- The result of `ucIfFinish` when both steps succeed. -/
theorem ucIfFinish_eq (L : List String) (asg : Asg) (d1 : List String)
    (flag : Bool) (elseStep : Except PyErr (List String × List Asg))
    (d2 d3 : List String) (cs csE : List Asg)
    (helse : (if flag = true then
        Except.ok (([] : List String), ([] : List Asg))
      else elseStep) = Except.ok (d3, csE)) :
    ucIfFinish L asg d1 (Except.ok (d2, cs)) flag elseStep =
      Except.ok ⟨_absorb_assignments L (_merge_assignments (cs ++ csE)),
        asg, true, d1 ++ d2 ++ d3⟩ := by
  by_cases hflag : flag = true
  · rw [if_pos hflag] at helse
    cases helse
    simp only [ucIfFinish, ebind_ok]
    rw [if_pos hflag]
  · rw [if_neg hflag] at helse
    simp only [ucIfFinish, ebind_ok]
    rw [if_neg hflag, helse, ebind_ok]

/-- No condition is both provably false and provably true. -/
theorem is_true_false_of_is_false (e : Expr) (hf : _is_false e = true) :
    _is_true e = false := by
  cases e <;> simp_all [_is_false, _is_true]

/-- The conjunction over the branch-loop contributors equals the claim's
"every live explicit branch is end-unreachable or exits with `x`
assigned". -/
theorem ucRunLive_all (L : List String) (py3 : Bool) (asg : Asg)
    (br : BranchList) (d : List String) (cs : List Asg) (x : String)
    (h : ucRunLive L py3 asg br = Except.ok (d, cs)) :
    cs.all (fun a => a x) =
      (liveB br).all (fun ob =>
        branchEndUnreach ob ||
          (branchExitAt L py3 asg ob x == Option.some true)) := by
  induction br using branchListInduction generalizing d cs with
  | h1 =>
    simp only [ucRunLive] at h
    cases h
    rfl
  | h2 e b rest ih =>
    simp only [ucRunLive] at h
    by_cases hf : _is_false e = true
    · rw [if_pos hf] at h
      simp only [liveB, hf, if_pos]
      exact ih d cs h
    · rw [if_neg hf] at h
      simp only [ucLiveStep] at h
      by_cases hu : _is_end_unreachable b = true
      · rw [if_pos hu, ebind_ok] at h
        by_cases ht : _is_true e = true
        · rw [if_pos ht] at h
          cases h
          simp [liveB, hf, ht, branchEndUnreach, hu]
        · rw [if_neg ht] at h
          cases hrest : ucRunLive L py3 asg rest with
          | error e2 => rw [hrest, ebind_error] at h; exact Except.noConfusion h
          | ok p =>
            rw [hrest, ebind_ok] at h
            cases h
            simpa [liveB, hf, ht, branchEndUnreach, hu]
              using ih p.1 p.2 hrest
      · rw [if_neg hu] at h
        cases hb : ucBlock L py3 asg b with
        | error e2 =>
          rw [hb, ebind_error, ebind_error] at h
          exact Except.noConfusion h
        | ok r =>
          rw [hb, ebind_ok, ebind_ok] at h
          have hexit : branchExitAt L py3 asg (Option.some b) x =
              Option.some (r.asg x) := by
            simp [branchExitAt, hb]
          by_cases ht : _is_true e = true
          · rw [if_pos ht] at h
            cases h
            simp [liveB, hf, ht, branchEndUnreach, hu, hexit, beq_some_true]
          · rw [if_neg ht] at h
            cases hrest : ucRunLive L py3 asg rest with
            | error e2 =>
              rw [hrest, ebind_error] at h; exact Except.noConfusion h
            | ok p =>
              rw [hrest, ebind_ok] at h
              cases h
              simp [liveB, hf, ht, branchEndUnreach, hu, hexit, beq_some_true,
                ih p.1 p.2 hrest]

/-- The conjunction over the `else`/fall-through contributor equals the
claim's condition on the final live branch. -/
theorem ucElseStep_all (L : List String) (py3 : Bool) (asg : Asg)
    (els : OptBlock) (d3 : List String) (csE : List Asg) (x : String)
    (h : ucElseStep L py3 asg els = Except.ok (d3, csE)) :
    csE.all (fun a => a x) =
      (branchEndUnreach (optOfEls els) ||
        (branchExitAt L py3 asg (optOfEls els) x == Option.some true)) := by
  cases els with
  | none =>
    simp only [ucElseStep] at h
    cases h
    simp [optOfEls, branchEndUnreach, branchExitAt, beq_some_true]
  | some eb =>
    simp only [ucElseStep] at h
    by_cases hu : _is_end_unreachable eb = true
    · rw [if_pos hu] at h
      cases h
      simp [optOfEls, branchEndUnreach, hu]
    · rw [if_neg hu] at h
      cases hb : ucBlock L py3 asg eb with
      | error e2 => rw [hb, ebind_error] at h; exact Except.noConfusion h
      | ok r =>
        rw [hb, ebind_ok] at h
        cases h
        simp [optOfEls, branchEndUnreach, hu, branchExitAt, hb, beq_some_true]

/-- The live branches decompose into the explicit branches plus the
`else`/fall-through slot, the latter dropped after a provably true
condition. -/
theorem liveBranches_decomp (br : BranchList) (els : OptBlock) :
    liveBranches br els =
      liveB br ++
        (if elseIsUnreachable br = true then [] else [optOfEls els]) := by
  induction br using branchListInduction with
  | h1 => simp [liveBranches, liveB, elseIsUnreachable]
  | h2 e b rest ih =>
    by_cases hf : _is_false e = true
    · have ht := is_true_false_of_is_false e hf
      simp [liveBranches, liveB, elseIsUnreachable, hf, ht, ih]
    · by_cases ht : _is_true e = true
      · simp [liveBranches, liveB, elseIsUnreachable, hf, ht]
      · simp [liveBranches, liveB, elseIsUnreachable, hf, ht, ih]

/-- `ucIfFinish` propagates a failing `else` step. -/
theorem ucIfFinish_err (L : List String) (asg : Asg) (d1 : List String)
    (flag : Bool) (elseStep : Except PyErr (List String × List Asg))
    (d2 : List String) (cs : List Asg) (e : PyErr)
    (hels : (if flag = true then
        Except.ok (([] : List String), ([] : List Asg))
      else elseStep) = Except.error e) :
    ucIfFinish L asg d1 (Except.ok (d2, cs)) flag elseStep =
      Except.error e := by
  by_cases hflag : flag = true
  · rw [if_pos hflag] at hels
    exact Except.noConfusion hels
  · rw [if_neg hflag] at hels
    simp only [ucIfFinish, ebind_ok]
    rw [if_neg hflag, hels, ebind_error]

/-- Claim C7.  After an `if`/`elif`/`else` statement, a tracked local `x`
is marked definitely assigned iff every live branch — each branch whose
condition is not provably false, up to and including a branch with a
provably true condition (which also drops the `else`), plus the `else`
body or the implicit fall-through path when no condition is provably true
— is either end-unreachable or exits with `x` assigned (conjunctive join;
when every live branch is end-unreachable the result is vacuously
"assigned", per `_absorb_assignments`' dead-code rule).  And when `x`
comes out unassigned, a read of `x` placed right after the `if` statement
produces a diagnostic. -/
theorem c7_if_conjunctive_join (L : List String) (py3 : Bool) (asg : Asg)
    (br : BranchList) (els : OptBlock) (x : String)
    (hx : x ∈ L)
    (hok : ucOk (ucStmt L py3 asg (Stmt.ifS br els)) = true) :
    (ucAsgAt (ucStmt L py3 asg (Stmt.ifS br els)) x = Option.some true ↔
      liveAllAssigned L py3 asg br els x = true) ∧
    (ucAsgAt (ucStmt L py3 asg (Stmt.ifS br els)) x = Option.some false →
      diagsContain (ucBlock L py3 asg (readAfter (Stmt.ifS br els) x)) x =
        true) := by
  have heq : ucStmt L py3 asg (Stmt.ifS br els) =
      ucIfFinish L asg (condDiags L asg br) (ucRunLive L py3 asg br)
        (elseIsUnreachable br) (ucElseStep L py3 asg els) := by
    simp only [ucStmt]
  cases hlive : ucRunLive L py3 asg br with
  | error e =>
    rw [heq, hlive] at hok
    simp [ucIfFinish, ebind_error, ucOk] at hok
  | ok p =>
    obtain ⟨d2, cs⟩ := p
    cases hels : (if elseIsUnreachable br = true then
        Except.ok (([] : List String), ([] : List Asg))
      else ucElseStep L py3 asg els) with
    | error e =>
      rw [heq, hlive,
        ucIfFinish_err L asg (condDiags L asg br) (elseIsUnreachable br)
          (ucElseStep L py3 asg els) d2 cs e hels] at hok
      simp [ucOk] at hok
    | ok q =>
      obtain ⟨d3, csE⟩ := q
      have hfin := ucIfFinish_eq L asg (condDiags L asg br)
        (elseIsUnreachable br) (ucElseStep L py3 asg els) d2 d3 cs csE hels
      have hA : _absorb_assignments L (_merge_assignments (cs ++ csE)) x =
          liveAllAssigned L py3 asg br els x := by
        have h1 := ucRunLive_all L py3 asg br d2 cs x hlive
        have h2 : csE.all (fun a => a x) =
            (if elseIsUnreachable br = true then ([] : List (Option Block))
              else [optOfEls els]).all (fun ob =>
                branchEndUnreach ob ||
                  (branchExitAt L py3 asg ob x == Option.some true)) := by
          by_cases hflag : elseIsUnreachable br = true
          · rw [if_pos hflag] at hels
            cases hels
            rw [if_pos hflag]
            rfl
          · rw [if_neg hflag] at hels
            rw [if_neg hflag]
            simpa using ucElseStep_all L py3 asg els d3 csE x hels
        simp only [liveAllAssigned]
        rw [absorb_merge_all L (cs ++ csE) x hx, List.all_append, h1, h2,
          liveBranches_decomp, List.all_append]
      constructor
      · rw [heq, hlive, hfin]
        simp [ucAsgAt, hA]
      · intro hfalse
        rw [heq, hlive, hfin] at hfalse
        have habs : _absorb_assignments L
            (_merge_assignments (cs ++ csE)) x = false := by
          simpa [ucAsgAt] using hfalse
        have hc : checkExpr L
            (_absorb_assignments L (_merge_assignments (cs ++ csE)))
            (Expr.nameE x "" Option.none) = [x] := by
          simp [checkExpr, hx, habs]
        have hunf : ucBlock L py3 asg (readAfter (Stmt.ifS br els) x) =
            (ucStmt L py3 asg (Stmt.ifS br els) >>= fun r1 =>
              (ucBlock L py3 r1.asg
                  (Block.cons (Stmt.exprS (Expr.nameE x "" Option.none))
                    Block.nil) >>= fun r2 =>
                Except.ok ⟨r2.asg,
                  if r1.rebound then r1.aliasAsg else r2.aliasAsg,
                  r1.rebound || r2.rebound, r1.diags ++ r2.diags⟩)) := rfl
        have hread : ∀ a : Asg, ucBlock L py3 a
            (Block.cons (Stmt.exprS (Expr.nameE x "" Option.none))
              Block.nil) =
            Except.ok ⟨a, a, false,
              checkExpr L a (Expr.nameE x "" Option.none) ++ []⟩ :=
          fun a => rfl
        rw [hunf, heq, hlive, hfin, ebind_ok, hread, ebind_ok]
        simp [diagsContain, hc]

/-- Witness for C7 at the concrete program `if c: x = 1` with `x`
unassigned before it: the fall-through branch leaves `x` unassigned, so
the join yields "unassigned" and the subsequent read warns. -/
theorem c7_if_conjunctive_join_witness :
    ("x" ∈ ["x", "c"]) ∧
    ucOk (ucStmt ["x", "c"] true c7Asg (Stmt.ifS c7Br OptBlock.none)) =
      true ∧
    ((ucAsgAt (ucStmt ["x", "c"] true c7Asg (Stmt.ifS c7Br OptBlock.none))
        "x" = Option.some true ↔
      liveAllAssigned ["x", "c"] true c7Asg c7Br OptBlock.none "x" = true) ∧
    (ucAsgAt (ucStmt ["x", "c"] true c7Asg (Stmt.ifS c7Br OptBlock.none))
        "x" = Option.some false →
      diagsContain
        (ucBlock ["x", "c"] true c7Asg
          (readAfter (Stmt.ifS c7Br OptBlock.none) "x")) "x" = true)) :=
  ⟨by decide, by decide,
    c7_if_conjunctive_join ["x", "c"] true c7Asg c7Br OptBlock.none "x"
      (by decide) (by decide)⟩
